import Mathlib

/-!
# JSCHelpers: the native/script function bridge

A shallow embedding of `ReactCommon/jschelpers/JSCHelpers.cpp`.

The scripting engine's context is an explicit state (`JSContext`): a global object, a heap
of further objects, and the engine's conversion of objects to strings.  Code that raises is
embedded with an explicit outcome: `Exec` records the error-log writes and the raise of a
script-to-host translation in program order, `Except CppException` is a native call that
either returns or propagates a native exception.

Text is `String`; `std::string::c_str()` is the identity, the texts being NUL-free.
-/

namespace JSCHelpers

/-! ## Data model -/

/-- Opaque handle of an engine context, as handed to native closures. -/
abbrev JSContextRef := Nat

/-- Identity of a script object: `0` is the global object, `r + 1` the heap cell `r`. -/
abbrev JSObjectRef := Nat

/-- Script values.  A number carries the integer that `Value::asInteger` reads from it. -/
inductive JSValue where
  | undefined
  | null
  | boolean (b : Bool)
  | number (n : Int)
  | string (s : String)
  | object (ref : JSObjectRef)
  deriving DecidableEq, Repr

/-- A `JSValueRef` is a nullable pointer to a script value: `none` is `nullptr`. -/
abbrev JSValueRef := Option JSValue

/-- Modelled from the spec: the host-level `ScriptExecutionError` (`JSException` of
JSCHelpers.h, which is missing): a message, with or without an attached stack trace. -/
structure JSException where
  message : String
  stack : Option String
  deriving DecidableEq, Repr

/-- The native exception in flight, by the handler of
`translatePendingCppExceptionToJSError` that catches it. -/
inductive CppException where
  | bad_alloc
  | exception (what : String)
  | c_str (text : String)
  | unknown (tag : Nat)
  deriving DecidableEq, Repr

/-- A native closure `JSFunction`: `(ctx, thisObject, arguments)` to a script value, or a
native exception. -/
abbrev JSFunction :=
  JSContextRef → JSObjectRef → List JSValueRef → Except CppException JSValueRef

/-- A raw engine callback `JSObjectCallAsFunctionCallback`:
`(ctx, function, thisObject, arguments)` to the returned value and the exception slot. -/
abbrev JSObjectCallAsFunctionCallback :=
  JSContextRef → JSObjectRef → JSObjectRef → List JSValueRef → JSValueRef × JSValueRef

/-- A raw engine callback `JSObjectGetPropertyCallback`: `(ctx, object, propertyName)` to
the value and the exception slot. -/
abbrev JSObjectGetPropertyCallback :=
  JSContextRef → JSObjectRef → String → JSValueRef × JSValueRef

/-- The class of a script object, by the class definition it was made from. -/
inductive JSClassRef where
  /-- an ordinary object -/
  | plain
  /-- the class `kClassDef` of `makeFunction`, built by `createFuncClass` -/
  | kClassDef
  /-- the class `_FBProxyClass` of `installGlobalProxy`, with its `getProperty` trap -/
  | proxyClass (getProperty : JSObjectGetPropertyCallback)
  /-- a function made by `JSObjectMakeFunctionWithCallback` -/
  | callbackFunction (callback : JSObjectCallAsFunctionCallback)

/-- One script object: its class, its private slot (the owned `JSFunction` that
`JSObjectGetPrivate` points to) and its own properties. -/
structure JSObjectData where
  jsClass : JSClassRef
  priv : Option JSFunction
  props : List (String × JSValue)

/-- The state of an engine context. -/
structure JSContext where
  ref : JSContextRef
  globalObject : JSObjectData
  heap : List JSObjectData
  /-- the engine's conversion of an object to a string, which raises when the object's own
  conversion does -/
  stringOf : JSObjectRef → Except JSException String

/-! ## Engine and marshaling primitives -/

/-- The object a reference points to, if it is live. -/
def JSContext.object? (ctx : JSContext) : JSObjectRef → Option JSObjectData
  | 0 => some ctx.globalObject
  | r + 1 => ctx.heap[r]?

/-- The handle of the global object, `Object::getGlobalObject`. -/
def Object.getGlobalObject (_ctx : JSContext) : JSObjectRef := 0

/-- Write of one named property: any earlier binding of the name is replaced. -/
def setProp (props : List (String × JSValue)) (name : String) (v : JSValue) :
    List (String × JSValue) :=
  (name, v) :: props.filter (fun p => p.1 != name)

/-- Read of one named property: an unbound name reads as undefined. -/
def getProp (props : List (String × JSValue)) (name : String) : JSValue :=
  match props.lookup name with
  | some v => v
  | none => JSValue.undefined

/-- Modelled from the spec: `Object::setProperty` (Value.h, which is missing), the write of a
named property of a script object. -/
def Object.setProperty (ctx : JSContext) (obj : JSObjectRef) (name : String) (v : JSValue) :
    JSContext :=
  match obj with
  | 0 =>
    { ctx with
      globalObject := { ctx.globalObject with props := setProp ctx.globalObject.props name v } }
  | r + 1 =>
    { ctx with
      heap := List.modify (fun o => { o with props := setProp o.props name v }) r ctx.heap }

/-- Modelled from the spec: `Object::getProperty` (Value.h, which is missing), the read of a
named property of a script object; a property that is not there reads as undefined. -/
def Object.getProperty (ctx : JSContext) (obj : Option JSObjectRef) (name : String) :
    JSValueRef :=
  match obj with
  | none => some JSValue.undefined
  | some r =>
    match ctx.object? r with
    | some o => some (getProp o.props name)
    | none => some JSValue.undefined

/-- Modelled from the spec: `Value::asObject` (Value.h, which is missing).  A value that is
not an object converts to a wrapper without properties of its own, written `none`. -/
def Value.asObject (v : JSValueRef) : Option JSObjectRef :=
  match v with
  | some (JSValue.object r) => some r
  | _ => none

/-- Modelled from the spec: `Value::isNumber` (Value.h, which is missing). -/
def Value.isNumber (v : JSValueRef) : Bool :=
  match v with
  | some (JSValue.number _) => true
  | _ => false

/-- Modelled from the spec: `Value::isString` (Value.h, which is missing). -/
def Value.isString (v : JSValueRef) : Bool :=
  match v with
  | some (JSValue.string _) => true
  | _ => false

/-- Modelled from the spec: `Value::isNull` (Value.h, which is missing); the engine reads a
null reference as the null value. -/
def Value.isNull (v : JSValueRef) : Bool :=
  match v with
  | none => true
  | some JSValue.null => true
  | _ => false

/-- Modelled from the spec: `Value::asInteger` (Value.h, which is missing). -/
def Value.asInteger (v : JSValueRef) : Int :=
  match v with
  | some (JSValue.number n) => n
  | _ => 0

/-- Modelled from the spec: `Value::toString().str()` (Value.h, which is missing), the
displayable string form of a value. -/
def Value.toString (ctx : JSContext) (v : JSValueRef) : Except JSException String :=
  match v with
  | none => Except.ok "null"
  | some JSValue.undefined => Except.ok "undefined"
  | some JSValue.null => Except.ok "null"
  | some (JSValue.boolean b) => Except.ok (if b then "true" else "false")
  | some (JSValue.number n) => Except.ok (ToString.toString n)
  | some (JSValue.string s) => Except.ok s
  | some (JSValue.object r) => ctx.stringOf r

/-! ## Script to host: logging and raising -/

/-- What a script-to-host translation does that its caller can observe, in program order. -/
inductive Event where
  | logError (line : String)
  | raise (e : JSException)
  deriving DecidableEq, Repr

/-- A run of host code that may write to the error log and may raise. -/
structure Exec (α : Type) where
  trace : List Event
  result : Except JSException α

/-- A run that returns at once. -/
def Exec.ret {α : Type} (a : α) : Exec α := { trace := [], result := Except.ok a }

/-- One line written to the error log, `LOG(ERROR) << ...`. -/
def Exec.log (line : String) : Exec Unit :=
  { trace := [Event.logError line], result := Except.ok () }

/-- The raise of `e`, `throw e`. -/
def Exec.throw {α : Type} (e : JSException) : Exec α :=
  { trace := [Event.raise e], result := Except.error e }

/-- Sequencing: the second run happens only if the first returned. -/
def Exec.andThen {α β : Type} (x : Exec α) (k : α → Exec β) : Exec β :=
  match x.result with
  | Except.ok a => { trace := x.trace ++ (k a).trace, result := (k a).result }
  | Except.error e => { trace := x.trace, result := Except.error e }

/-- Modelled from the spec: `throwJSExecutionException("%s", msg)` (JSCHelpers.h, which is
missing) raises a plain `ScriptExecutionError(message)`. -/
def throwJSExecutionException {α : Type} (msg : String) : Exec α :=
  Exec.throw { message := msg, stack := none }

/-- Modelled from the spec: `throwJSExecutionExceptionWithStack(msg, stack)` (JSCHelpers.h,
which is missing) raises `ScriptExecutionError(message, stack)` carrying both. -/
def throwJSExecutionExceptionWithStack {α : Type} (msg stack : String) : Exec α :=
  Exec.throw { message := msg, stack := some stack }

/-- The function `formatAndThrowJSException(context, exn, source)`; `source` is `none` for
`nullptr`. -/
def formatAndThrowJSException (context : JSContext) (exn : JSValueRef)
    (source : Option String) : Exec Unit :=
  match Value.toString context exn with
  | Except.error e => Exec.throw e
  | Except.ok exceptionText =>
    let locationInfo : String := match source with
      | some s => s
      | none => ""
    let exObject := Value.asObject exn
    let line := Object.getProperty context exObject "line"
    let locationInfo : String :=
      if line != none && Value.isNumber line then
        if locationInfo = "" && Value.asInteger line != 1 then
          "<unknown file>:" ++ ToString.toString (Value.asInteger line)
        else if ¬ locationInfo = "" then
          locationInfo ++ (":" ++ ToString.toString (Value.asInteger line))
        else locationInfo
      else locationInfo
    let exceptionText : String :=
      if ¬ locationInfo = "" then exceptionText ++ (" (" ++ locationInfo ++ ")")
      else exceptionText
    (Exec.log ("Got JS Exception: " ++ exceptionText)).andThen fun _ =>
      let jsStack := Object.getProperty context exObject "stack"
      if Value.isNull jsStack || !Value.isString jsStack then
        throwJSExecutionException exceptionText
      else
        match Value.toString context jsStack with
        | Except.error e => Exec.throw e
        | Except.ok stackText =>
          (Exec.log ("Got JS Stack: " ++ stackText)).andThen fun _ =>
            throwJSExecutionExceptionWithStack exceptionText stackText

/-- The function `evaluateScript(context, script, source)`.  The engine's `JSEvaluateScript` is a
parameter: it gives the result, `nullptr` on failure, and the value left in the exception
slot. -/
def evaluateScript
    (JSEvaluateScript : JSContext → String → Option String → JSValueRef × JSValueRef)
    (context : JSContext) (script : String) (source : Option String) : Exec JSValueRef :=
  let result := (JSEvaluateScript context script source).1
  let exn := (JSEvaluateScript context script source).2
  if result = none then
    (formatAndThrowJSException context exn source).andThen fun _ => Exec.ret result
  else
    Exec.ret result

/-! ## The text a translation builds -/

/-- The location text that lines 137-151 of `formatAndThrowJSException` leave in
`locationInfo`, from the source label and the value read from the `line` property. -/
def locationInfoOf (source : Option String) (line : JSValueRef) : String :=
  let locationInfo : String := match source with
    | some s => s
    | none => ""
  if line != none && Value.isNumber line then
    if locationInfo = "" && Value.asInteger line != 1 then
      "<unknown file>:" ++ ToString.toString (Value.asInteger line)
    else if ¬ locationInfo = "" then
      locationInfo ++ (":" ++ ToString.toString (Value.asInteger line))
    else locationInfo
  else locationInfo

/-- The text that lines 153-155 of `formatAndThrowJSException` leave in `exceptionText`. -/
def exceptionTextOf (text : String) (source : Option String) (line : JSValueRef) : String :=
  if ¬ locationInfoOf source line = "" then text ++ (" (" ++ locationInfoOf source line ++ ")")
  else text

/-! ## Host to script: the native exception in flight becomes a script error value -/

/-- Modelled from the spec: `Value::makeError` (Value.h, which is missing) constructs a
script error object that carries a single descriptive message string. -/
def Value.makeError (ctx : JSContext) (error : String) : JSContext × JSValueRef :=
  ({ ctx with
     heap := ctx.heap ++
       [{ jsClass := JSClassRef.plain, priv := none,
          props := [("message", JSValue.string error)] }] },
   some (JSValue.object (ctx.heap.length + 1)))

/-- The message a script error value carries. -/
def errorMessage (ctx : JSContext) (error : JSValueRef) : JSValueRef :=
  Object.getProperty ctx (Value.asObject error) "message"

/-- The overload `translatePendingCppExceptionToJSError(ctx, exceptionLocation)`.  The
exception that `throw;` re-raises is the explicit argument `pending`; the result is the new
engine state with the script error value, or the native exception that leaves the call. -/
def translatePendingCppExceptionToJSError (ctx : JSContext) (pending : CppException)
    (exceptionLocation : String) : Except CppException (JSContext × JSValueRef) :=
  match pending with
  | CppException.bad_alloc => Except.error CppException.bad_alloc
  | CppException.exception what =>
    Except.ok (Value.makeError ctx ("C++ Exception in '" ++ exceptionLocation ++ "': " ++ what))
  | CppException.c_str ex =>
    Except.ok (Value.makeError ctx
      ("C++ Exception (thrown as a char*) in '" ++ exceptionLocation ++ "': " ++ ex))
  | CppException.unknown _ =>
    Except.ok (Value.makeError ctx ("Unknown C++ Exception in '" ++ exceptionLocation ++ "'"))

/-- The overload `translatePendingCppExceptionToJSError(ctx, jsFunctionCause)`.  Its
`catch (...)` encloses both the reading of the name and the call of the label overload. -/
def translatePendingCppExceptionToJSErrorOfFunction (ctx : JSContext) (pending : CppException)
    (jsFunctionCause : JSObjectRef) : Except CppException (JSContext × JSValueRef) :=
  match Value.toString ctx (Object.getProperty ctx (some jsFunctionCause) "name") with
  | Except.ok functionName =>
    match translatePendingCppExceptionToJSError ctx pending functionName with
    | Except.ok r => Except.ok r
    | Except.error _ =>
      Except.ok (Value.makeError ctx "Failed to get function name while handling exception")
  | Except.error _ =>
    Except.ok (Value.makeError ctx "Failed to get function name while handling exception")

/-! ## Function wrapper -/

/-- How a call of a script function ends for the engine: with a value, or with a script
error value in the exception slot. -/
inductive Completion where
  | normal (value : JSValueRef)
  | scriptError (error : JSValueRef)
  deriving DecidableEq, Repr

/-- The engine's `JSObjectMake(ctx, jsClass, data)`: a fresh object of the class with the
private slot set. -/
def JSObjectMake (ctx : JSContext) (jsClass : JSClassRef) (data : Option JSFunction) :
    JSContext × JSObjectRef :=
  ({ ctx with heap := ctx.heap ++ [{ jsClass := jsClass, priv := data, props := [] }] },
   ctx.heap.length + 1)

/-- The engine's `JSObjectGetPrivate(object)`. -/
def JSObjectGetPrivate (ctx : JSContext) (object : JSObjectRef) : Option JSFunction :=
  match ctx.object? object with
  | some o => o.priv
  | none => none

/-- The dispatcher `functionCaller`: `(*f)(ctx, thisObject, argumentCount, arguments)` for
the `JSFunction` in the private slot; `none` when the slot holds no function. -/
def functionCaller (ctx : JSContext) (function thisObject : JSObjectRef)
    (arguments : List JSValueRef) : Option (Except CppException JSValueRef) :=
  match JSObjectGetPrivate ctx function with
  | some f => some (f ctx.ref thisObject arguments)
  | none => none

/-- Modelled from the spec: `exceptionWrapMethod` (JSCHelpers.h, which is missing).  A native
exception raised during the re-entry is caught by the translator and turned into a script
error value instead of propagating across the boundary. -/
def exceptionWrapMethod
    (method : JSContext → JSObjectRef → JSObjectRef → List JSValueRef →
      Option (Except CppException JSValueRef))
    (ctx : JSContext) (function thisObject : JSObjectRef) (arguments : List JSValueRef) :
    Option (Except CppException (JSContext × Completion)) :=
  match method ctx function thisObject arguments with
  | none => none
  | some (Except.ok v) => some (Except.ok (ctx, Completion.normal v))
  | some (Except.error pending) =>
    match translatePendingCppExceptionToJSErrorOfFunction ctx pending function with
    | Except.ok r => some (Except.ok (r.1, Completion.scriptError r.2))
    | Except.error e => some (Except.error e)

/-- The engine's `JSObjectIsFunction`: the object's class has a call trap. -/
def JSObjectIsFunction (ctx : JSContext) (object : JSObjectRef) : Bool :=
  match ctx.object? object with
  | some o =>
    match o.jsClass with
    | JSClassRef.kClassDef => true
    | JSClassRef.callbackFunction _ => true
    | _ => false
  | none => false

/-- The engine's `JSObjectCallAsFunction`: the call trap of the object's class is run.  For
`kClassDef` that is `exceptionWrapMethod<&functionCaller>()`, as `createFuncClass` sets it;
`none` when the object cannot be called. -/
def JSObjectCallAsFunction (ctx : JSContext) (object thisObject : JSObjectRef)
    (arguments : List JSValueRef) : Option (Except CppException (JSContext × Completion)) :=
  match ctx.object? object with
  | some o =>
    match o.jsClass with
    | JSClassRef.kClassDef => exceptionWrapMethod functionCaller ctx object thisObject arguments
    | JSClassRef.callbackFunction callback =>
      match callback ctx.ref object thisObject arguments with
      | (v, none) => some (Except.ok (ctx, Completion.normal v))
      | (_, some e) => some (Except.ok (ctx, Completion.scriptError (some e)))
    | _ => none
  | none => none

/-- The script calling the global property `name` as a function: the engine reads the
property off the global object and calls the object it holds, with the global object as
`this`; `none` when the property holds nothing that can be called. -/
def callGlobalFunction (ctx : JSContext) (name : String) (arguments : List JSValueRef) :
    Option (Except CppException (JSContext × Completion)) :=
  match Object.getProperty ctx (some (Object.getGlobalObject ctx)) name with
  | some (JSValue.object function) =>
    JSObjectCallAsFunction ctx function (Object.getGlobalObject ctx) arguments
  | _ => none

/-- The overload `makeFunction(ctx, name, function)` that takes the closure. -/
def makeFunction (ctx : JSContext) (name : String) (function : JSFunction) :
    JSContext × JSObjectRef :=
  let made := JSObjectMake ctx JSClassRef.kClassDef (some function)
  let functionObject := made.2
  (Object.setProperty made.1 functionObject "name" (JSValue.string name), functionObject)

/-- The engine's `JSObjectMakeFunctionWithCallback(ctx, name, callback)`. -/
def JSObjectMakeFunctionWithCallback (ctx : JSContext) (name : String)
    (callback : JSObjectCallAsFunctionCallback) : JSContext × JSObjectRef :=
  ({ ctx with
     heap := ctx.heap ++
       [{ jsClass := JSClassRef.callbackFunction callback, priv := none,
          props := [("name", JSValue.string name)] }] },
   ctx.heap.length + 1)

/-! ## Global binding installer -/

/-- The overload `installGlobalFunction(ctx, name, function)` that takes the closure. -/
def installGlobalFunction (ctx : JSContext) (name : String) (function : JSFunction) :
    JSContext :=
  let jsName := name
  let made := makeFunction ctx jsName function
  Object.setProperty made.1 (Object.getGlobalObject made.1) jsName (JSValue.object made.2)

/-- The overload `installGlobalFunction(ctx, name, callback)` that takes a raw callback. -/
def installGlobalFunctionWithCallback (ctx : JSContext) (name : String)
    (callback : JSObjectCallAsFunctionCallback) : JSContext :=
  let jsName := name
  let made := JSObjectMakeFunctionWithCallback ctx jsName callback
  Object.setProperty made.1 (Object.getGlobalObject made.1) jsName (JSValue.object made.2)

/-- The function `installGlobalProxy(ctx, name, callback)`. -/
def installGlobalProxy (ctx : JSContext) (name : String)
    (callback : JSObjectGetPropertyCallback) : JSContext :=
  let made := JSObjectMake ctx (JSClassRef.proxyClass callback) none
  Object.setProperty made.1 (Object.getGlobalObject made.1) name (JSValue.object made.2)

/-- The function `removeGlobal(ctx, name)`; `Value::makeUndefined` is the undefined value. -/
def removeGlobal (ctx : JSContext) (name : String) : JSContext :=
  Object.setProperty ctx (Object.getGlobalObject ctx) name JSValue.undefined

/-! ## Example states -/

/-- A context whose heap holds one thrown object, `{message: "boom", line: 5}`, displayed
as `boom`. -/
def ctxLine5 : JSContext :=
  { ref := 7
    globalObject := { jsClass := JSClassRef.plain, priv := none, props := [] }
    heap := [{ jsClass := JSClassRef.plain, priv := none,
               props := [("message", JSValue.string "boom"), ("line", JSValue.number 5)] }]
    stringOf := fun _ => Except.ok "boom" }

/-- A context whose heap holds one thrown object with `line` 1 and a string `stack`. -/
def ctxLine1 : JSContext :=
  { ref := 7
    globalObject := { jsClass := JSClassRef.plain, priv := none, props := [] }
    heap := [{ jsClass := JSClassRef.plain, priv := none,
               props := [("message", JSValue.string "boom"), ("line", JSValue.number 1),
                         ("stack", JSValue.string "f@foo.js:1")] }]
    stringOf := fun _ => Except.ok "boom" }

/-- An engine whose evaluation always succeeds with the number 2. -/
def evalTwo : JSContext → String → Option String → JSValueRef × JSValueRef :=
  fun _ _ _ => (some (JSValue.number 2), none)

/-- An engine whose evaluation always fails, leaving the object at heap cell 0 in the
exception slot. -/
def evalThrow : JSContext → String → Option String → JSValueRef × JSValueRef :=
  fun _ _ _ => (none, some (JSValue.object 1))

/-- A closure that returns its first argument. -/
def firstArgument : JSFunction := fun _ _ args => Except.ok (args.headD none)

/-- A context whose heap holds one function object named `myFn` that returns its first
argument, bound to the global name `myFn`. -/
def ctxFn : JSContext :=
  { ref := 7
    globalObject :=
      { jsClass := JSClassRef.plain, priv := none, props := [("myFn", JSValue.object 1)] }
    heap := [{ jsClass := JSClassRef.kClassDef,
               priv := some firstArgument,
               props := [("name", JSValue.string "myFn")] }]
    stringOf := fun _ => Except.ok "[object Object]" }

/-- A context whose heap holds one function object whose `name` is an object that the engine
cannot convert to a string. -/
def ctxBadName : JSContext :=
  { ref := 7
    globalObject := { jsClass := JSClassRef.plain, priv := none, props := [] }
    heap := [{ jsClass := JSClassRef.kClassDef,
               priv := some (fun _ _ _ => Except.error CppException.bad_alloc),
               props := [("name", JSValue.object 2)] },
             { jsClass := JSClassRef.plain, priv := none, props := [] }]
    stringOf := fun _ => Except.error { message := "toString raised", stack := none } }

/-- A closure that returns the number 42. -/
def fortyTwo : JSFunction := fun _ _ _ => Except.ok (some (JSValue.number 42))

/-! ## Lemmas on text -/

theorem append_eq_empty_iff (a b : String) : a ++ b = "" ↔ a = "" ∧ b = "" := by
  constructor
  · intro hab
    have h : (a ++ b).data = [] := by rw [hab]
    rw [String.data_append, List.append_eq_nil] at h
    exact ⟨String.ext h.1, String.ext h.2⟩
  · rintro ⟨rfl, rfl⟩
    rfl

theorem isString_eq_true_iff (v : JSValueRef) :
    Value.isString v = true ↔ ∃ s, v = some (JSValue.string s) := by
  constructor
  · intro h
    match v, h with
    | some (JSValue.string s), _ => exact ⟨s, rfl⟩
  · rintro ⟨s, rfl⟩
    rfl

/-! ## The two ways `formatAndThrowJSException` ends -/

theorem formatAndThrowJSException_plain (context : JSContext) (exn : JSValueRef)
    (source : Option String) (T : String)
    (hT : Value.toString context exn = Except.ok T)
    (hstack : Value.isString (Object.getProperty context (Value.asObject exn) "stack") = false) :
    formatAndThrowJSException context exn source =
      { trace :=
          [Event.logError ("Got JS Exception: " ++
              exceptionTextOf T source (Object.getProperty context (Value.asObject exn) "line")),
           Event.raise
            { message :=
                exceptionTextOf T source (Object.getProperty context (Value.asObject exn) "line")
              stack := none }]
        result := Except.error
          { message :=
              exceptionTextOf T source (Object.getProperty context (Value.asObject exn) "line")
            stack := none } } := by
  simp only [formatAndThrowJSException, hT, hstack]
  simp [Exec.andThen, Exec.log, throwJSExecutionException, Exec.throw, exceptionTextOf,
    locationInfoOf]

theorem formatAndThrowJSException_stack (context : JSContext) (exn : JSValueRef)
    (source : Option String) (T stackText : String)
    (hT : Value.toString context exn = Except.ok T)
    (hstack : Object.getProperty context (Value.asObject exn) "stack" =
      some (JSValue.string stackText)) :
    formatAndThrowJSException context exn source =
      { trace :=
          [Event.logError ("Got JS Exception: " ++
              exceptionTextOf T source (Object.getProperty context (Value.asObject exn) "line")),
           Event.logError ("Got JS Stack: " ++ stackText),
           Event.raise
            { message :=
                exceptionTextOf T source (Object.getProperty context (Value.asObject exn) "line")
              stack := some stackText }]
        result := Except.error
          { message :=
              exceptionTextOf T source (Object.getProperty context (Value.asObject exn) "line")
            stack := some stackText } } := by
  simp only [formatAndThrowJSException, hT, hstack]
  simp [Exec.andThen, Exec.log, throwJSExecutionExceptionWithStack, Exec.throw, exceptionTextOf,
    locationInfoOf, Value.isNull, Value.isString, Value.toString]

/-- Whatever the `stack` property holds, the raised error carries the formatted text. -/
theorem formatAndThrowJSException_message (context : JSContext) (exn : JSValueRef)
    (source : Option String) (T : String)
    (hT : Value.toString context exn = Except.ok T) :
    ∃ stack, (formatAndThrowJSException context exn source).result =
      Except.error
        { message :=
            exceptionTextOf T source (Object.getProperty context (Value.asObject exn) "line")
          stack := stack } := by
  cases hs : Value.isString (Object.getProperty context (Value.asObject exn) "stack")
  · exact ⟨none, by rw [formatAndThrowJSException_plain context exn source T hT hs]⟩
  · obtain ⟨s, hs⟩ := (isString_eq_true_iff _).mp hs
    exact ⟨some s, by rw [formatAndThrowJSException_stack context exn source T s hT hs]⟩

/-- Whatever it is given, `formatAndThrowJSException` ends by raising. -/
theorem formatAndThrowJSException_raises (context : JSContext) (exn : JSValueRef)
    (source : Option String) :
    ∃ e, (formatAndThrowJSException context exn source).result = Except.error e := by
  cases hT : Value.toString context exn with
  | error e => exact ⟨e, by simp [formatAndThrowJSException, hT, Exec.throw]⟩
  | ok T =>
    obtain ⟨stack, h⟩ := formatAndThrowJSException_message context exn source T hT
    exact ⟨_, h⟩

/-! ## Script to host: the claims -/

/-- C1: with a non-empty source label `S`, an exception value whose display string is `T`
is raised with the message `T ++ " (" ++ S ++ ":" ++ L ++ ")"` when its `line` property is
the number `L`, whatever `L` is, and with the message `T ++ " (" ++ S ++ ")"` when the
`line` property is not a number. -/
theorem formatAndThrowJSException_message_with_label (context : JSContext)
    (exn : JSValueRef) (T S : String)
    (hT : Value.toString context exn = Except.ok T) (hS : S ≠ "") :
    (∀ L : Int,
      Object.getProperty context (Value.asObject exn) "line" = some (JSValue.number L) →
      ∃ stack, (formatAndThrowJSException context exn (some S)).result =
        Except.error
          { message := T ++ " (" ++ S ++ ":" ++ ToString.toString L ++ ")", stack := stack }) ∧
    (Value.isNumber (Object.getProperty context (Value.asObject exn) "line") = false →
      ∃ stack, (formatAndThrowJSException context exn (some S)).result =
        Except.error { message := T ++ " (" ++ S ++ ")", stack := stack }) := by
  obtain ⟨stack, h⟩ := formatAndThrowJSException_message context exn (some S) T hT
  refine ⟨fun L hL => ⟨stack, ?_⟩, fun hnum => ⟨stack, ?_⟩⟩
  · rw [h, hL]
    simp [exceptionTextOf, locationInfoOf, Value.isNumber, Value.asInteger, hS,
      append_eq_empty_iff, String.append_assoc]
  · rw [h]
    simp [exceptionTextOf, locationInfoOf, hnum, hS, String.append_assoc]

/-- C1, at the thrown object `{message: "boom", line: 5}` with the label `foo.js`. -/
theorem formatAndThrowJSException_message_with_label_witness :
    (Value.toString ctxLine5 (some (JSValue.object 1)) = Except.ok "boom" ∧ "foo.js" ≠ "") ∧
    ∃ stack, (formatAndThrowJSException ctxLine5 (some (JSValue.object 1))
        (some "foo.js")).result =
      Except.error { message := "boom (foo.js:5)", stack := stack } :=
  ⟨⟨rfl, by decide⟩,
    (formatAndThrowJSException_message_with_label ctxLine5 (some (JSValue.object 1))
      "boom" "foo.js" rfl (by decide)).1 5 rfl⟩

/-- C2: with an empty or absent source label, an exception value whose display string is
`T` is raised with the message `T` alone when its `line` property is the number 1 or is
not a number, and with the message `T ++ " (<unknown file>:" ++ L ++ ")"` when its `line`
property is a number `L` other than 1. -/
theorem formatAndThrowJSException_message_without_label (context : JSContext)
    (exn : JSValueRef) (T : String) (source : Option String)
    (hT : Value.toString context exn = Except.ok T)
    (hsource : source = none ∨ source = some "") :
    (Object.getProperty context (Value.asObject exn) "line" = some (JSValue.number 1) ∨
        Value.isNumber (Object.getProperty context (Value.asObject exn) "line") = false →
      ∃ stack, (formatAndThrowJSException context exn source).result =
        Except.error { message := T, stack := stack }) ∧
    (∀ L : Int, L ≠ 1 →
      Object.getProperty context (Value.asObject exn) "line" = some (JSValue.number L) →
      ∃ stack, (formatAndThrowJSException context exn source).result =
        Except.error
          { message := T ++ " (<unknown file>:" ++ ToString.toString L ++ ")",
            stack := stack }) := by
  obtain ⟨stack, h⟩ := formatAndThrowJSException_message context exn source T hT
  refine ⟨fun hline => ⟨stack, ?_⟩, fun L hL hline => ⟨stack, ?_⟩⟩
  · rw [h]
    rcases hline with hline | hline
    · rw [hline]
      rcases hsource with rfl | rfl <;>
        simp [exceptionTextOf, locationInfoOf, Value.isNumber, Value.asInteger]
    · rcases hsource with rfl | rfl <;> simp [exceptionTextOf, locationInfoOf, hline]
  · have hjoin : " (" ++ "<unknown file>:" = " (<unknown file>:" := by decide
    rw [h, hline]
    rcases hsource with rfl | rfl <;>
      simp [exceptionTextOf, locationInfoOf, Value.isNumber, Value.asInteger, hL,
        append_eq_empty_iff, String.append_assoc] <;>
      rw [← String.append_assoc " (" "<unknown file>:", hjoin]

/-- C2, at a thrown object with `line` 1 and an empty label. -/
theorem formatAndThrowJSException_message_without_label_witness :
    (Value.toString ctxLine1 (some (JSValue.object 1)) = Except.ok "boom" ∧
      ((some "" : Option String) = none ∨ (some "" : Option String) = some "")) ∧
    ∃ stack, (formatAndThrowJSException ctxLine1 (some (JSValue.object 1))
        (some "")).result =
      Except.error { message := "boom", stack := stack } :=
  ⟨⟨rfl, Or.inr rfl⟩,
    (formatAndThrowJSException_message_without_label ctxLine1 (some (JSValue.object 1))
      "boom" (some "") rfl (Or.inr rfl)).1 (Or.inl rfl)⟩

/-- C4: `evaluateScript` returns a value exactly when the engine's result is not null, and
then it returns the engine's result, writes nothing to the log and raises nothing.  When the
engine's result is null it raises the error that `formatAndThrowJSException` raises for the
engine's exception value and the source label, and does not return; the translator itself
never returns. -/
theorem evaluateScript_returns_iff
    (JSEvaluateScript : JSContext → String → Option String → JSValueRef × JSValueRef)
    (context : JSContext) (script : String) (source : Option String) :
    (∀ v : JSValue, (JSEvaluateScript context script source).1 = some v →
      evaluateScript JSEvaluateScript context script source =
        { trace := [], result := Except.ok (some v) }) ∧
    ((JSEvaluateScript context script source).1 = none →
      ∃ e : JSException,
        (formatAndThrowJSException context (JSEvaluateScript context script source).2
          source).result = Except.error e ∧
        evaluateScript JSEvaluateScript context script source =
          { trace := (formatAndThrowJSException context
              (JSEvaluateScript context script source).2 source).trace
            result := Except.error e }) ∧
    ((∃ r, (evaluateScript JSEvaluateScript context script source).result = Except.ok r) ↔
      (JSEvaluateScript context script source).1 ≠ none) ∧
    (∀ (ctx : JSContext) (exn : JSValueRef) (label : Option String),
      ∃ e, (formatAndThrowJSException ctx exn label).result = Except.error e) := by
  have hfail : (JSEvaluateScript context script source).1 = none →
      ∃ e : JSException,
        (formatAndThrowJSException context (JSEvaluateScript context script source).2
          source).result = Except.error e ∧
        evaluateScript JSEvaluateScript context script source =
          { trace := (formatAndThrowJSException context
              (JSEvaluateScript context script source).2 source).trace
            result := Except.error e } := by
    intro hnone
    obtain ⟨e, he⟩ := formatAndThrowJSException_raises context
      (JSEvaluateScript context script source).2 source
    exact ⟨e, he, by simp [evaluateScript, hnone, Exec.andThen, he]⟩
  have hok : ∀ v : JSValue, (JSEvaluateScript context script source).1 = some v →
      evaluateScript JSEvaluateScript context script source =
        { trace := [], result := Except.ok (some v) } := by
    intro v hv
    simp [evaluateScript, hv, Exec.ret]
  refine ⟨hok, hfail, ?_, formatAndThrowJSException_raises⟩
  constructor
  · rintro ⟨r, hr⟩ hnone
    obtain ⟨e, -, he⟩ := hfail hnone
    rw [he] at hr
    cases hr
  · intro hsome
    cases hv : (JSEvaluateScript context script source).1 with
    | none => exact absurd hv hsome
    | some v => exact ⟨some v, by rw [hok v hv]⟩

/-- C4, at an engine that yields 2 and at an engine that fails with a thrown object. -/
theorem evaluateScript_returns_iff_witness :
    evaluateScript evalTwo ctxLine5 "1+1" none =
      { trace := [], result := Except.ok (some (JSValue.number 2)) } ∧
    ∃ e : JSException,
      (formatAndThrowJSException ctxLine5 (evalThrow ctxLine5 "throw" (some "foo.js")).2
        (some "foo.js")).result = Except.error e ∧
      evaluateScript evalThrow ctxLine5 "throw" (some "foo.js") =
        { trace := (formatAndThrowJSException ctxLine5
            (evalThrow ctxLine5 "throw" (some "foo.js")).2 (some "foo.js")).trace
          result := Except.error e } :=
  ⟨(evaluateScript_returns_iff evalTwo ctxLine5 "1+1" none).1 (JSValue.number 2) rfl,
    (evaluateScript_returns_iff evalThrow ctxLine5 "throw" (some "foo.js")).2.1 rfl⟩

theorem errorMessage_makeError (ctx : JSContext) (error : String) :
    errorMessage (Value.makeError ctx error).1 (Value.makeError ctx error).2 =
      some (JSValue.string error) := by
  simp [errorMessage, Value.makeError, Value.asObject, Object.getProperty, JSContext.object?,
    getProp, List.lookup]

/-- C5, as the specification words it, fails: for the label `myFn` and a standard exception
with the message `bad arg`, the script error does not carry the message
`Native exception in 'myFn': bad arg`. -/
theorem translatePendingCppExceptionToJSError_not_native_wording :
    ¬ ∃ r : JSContext × JSValueRef,
      translatePendingCppExceptionToJSError ctxFn (CppException.exception "bad arg") "myFn" =
        Except.ok r ∧
      errorMessage r.1 r.2 = some (JSValue.string "Native exception in 'myFn': bad arg") := by
  rintro ⟨r, hr, hm⟩
  have h : translatePendingCppExceptionToJSError ctxFn (CppException.exception "bad arg")
      "myFn" = Except.ok (Value.makeError ctxFn "C++ Exception in 'myFn': bad arg") := rfl
  rw [h] at hr
  cases hr
  rw [errorMessage_makeError] at hm
  revert hm
  decide

/-- C5, amended: for every call-site label `L`, a standard exception with message `M` yields
a script error with the message `C++ Exception in 'L': M`, a raw text exception with text
`X` yields one with the message `C++ Exception (thrown as a char*) in 'L': X`, and any other
exception that is not an allocation failure yields one with the message
`Unknown C++ Exception in 'L'`. -/
theorem translatePendingCppExceptionToJSError_messages (ctx : JSContext) (L : String) :
    (∀ M : String, ∃ r : JSContext × JSValueRef,
      translatePendingCppExceptionToJSError ctx (CppException.exception M) L = Except.ok r ∧
      errorMessage r.1 r.2 =
        some (JSValue.string ("C++ Exception in '" ++ L ++ "': " ++ M))) ∧
    (∀ X : String, ∃ r : JSContext × JSValueRef,
      translatePendingCppExceptionToJSError ctx (CppException.c_str X) L = Except.ok r ∧
      errorMessage r.1 r.2 =
        some (JSValue.string ("C++ Exception (thrown as a char*) in '" ++ L ++ "': " ++ X))) ∧
    (∀ tag : Nat, ∃ r : JSContext × JSValueRef,
      translatePendingCppExceptionToJSError ctx (CppException.unknown tag) L = Except.ok r ∧
      errorMessage r.1 r.2 =
        some (JSValue.string ("Unknown C++ Exception in '" ++ L ++ "'"))) :=
  ⟨fun _ => ⟨_, rfl, errorMessage_makeError _ _⟩,
   fun _ => ⟨_, rfl, errorMessage_makeError _ _⟩,
   fun _ => ⟨_, rfl, errorMessage_makeError _ _⟩⟩

/-- C6, what the code does: when the exception in flight is an allocation failure, the label
overload re-raises it, but the function-object overload catches the re-raised exception in
its own `catch (...)` and returns the script error
`Failed to get function name while handling exception`. -/
theorem translatePendingCppExceptionToJSErrorOfFunction_swallows_bad_alloc
    (ctx : JSContext) (L : String) (jsFunctionCause : JSObjectRef) :
    translatePendingCppExceptionToJSError ctx CppException.bad_alloc L =
      Except.error CppException.bad_alloc ∧
    translatePendingCppExceptionToJSErrorOfFunction ctx CppException.bad_alloc
        jsFunctionCause =
      Except.ok
        (Value.makeError ctx "Failed to get function name while handling exception") ∧
    translatePendingCppExceptionToJSErrorOfFunction ctxFn CppException.bad_alloc 1 ≠
      Except.error CppException.bad_alloc := by
  refine ⟨rfl, ?_, ?_⟩
  · unfold translatePendingCppExceptionToJSErrorOfFunction
    cases Value.toString ctx (Object.getProperty ctx (some jsFunctionCause) "name") <;> rfl
  · intro h
    have h2 : translatePendingCppExceptionToJSErrorOfFunction ctxFn CppException.bad_alloc 1 =
        Except.ok (Value.makeError ctxFn
          "Failed to get function name while handling exception") := rfl
    rw [h2] at h
    cases h

/-- C7: for an exception in flight that is not an allocation failure and a function object
`F`, when reading the `name` of `F` and converting it to a string gives `N`, the
function-object overload returns what the label overload returns for `N`, which is a script
error value; when resolving the name fails, the overload does not raise and returns a script
error with the message `Failed to get function name while handling exception`. -/
theorem translatePendingCppExceptionToJSErrorOfFunction_delegates (ctx : JSContext)
    (pending : CppException) (F : JSObjectRef) (hpending : pending ≠ CppException.bad_alloc) :
    (∀ N : String,
      Value.toString ctx (Object.getProperty ctx (some F) "name") = Except.ok N →
      translatePendingCppExceptionToJSErrorOfFunction ctx pending F =
        translatePendingCppExceptionToJSError ctx pending N ∧
      ∃ r, translatePendingCppExceptionToJSError ctx pending N = Except.ok r) ∧
    (∀ e : JSException,
      Value.toString ctx (Object.getProperty ctx (some F) "name") = Except.error e →
      ∃ r : JSContext × JSValueRef,
        translatePendingCppExceptionToJSErrorOfFunction ctx pending F = Except.ok r ∧
        errorMessage r.1 r.2 =
          some (JSValue.string "Failed to get function name while handling exception")) := by
  constructor
  · intro N hN
    have hok : ∃ r, translatePendingCppExceptionToJSError ctx pending N = Except.ok r := by
      cases pending with
      | bad_alloc => exact absurd rfl hpending
      | exception what => exact ⟨_, rfl⟩
      | c_str text => exact ⟨_, rfl⟩
      | unknown tag => exact ⟨_, rfl⟩
    refine ⟨?_, hok⟩
    obtain ⟨r, hr⟩ := hok
    simp only [translatePendingCppExceptionToJSErrorOfFunction, hN, hr]
  · intro e he
    refine ⟨Value.makeError ctx "Failed to get function name while handling exception", ?_,
      errorMessage_makeError _ _⟩
    simp only [translatePendingCppExceptionToJSErrorOfFunction, he]

/-- C7, at a function object named `myFn` and at one whose name cannot be converted. -/
theorem translatePendingCppExceptionToJSErrorOfFunction_delegates_witness :
    (CppException.exception "bad arg" ≠ CppException.bad_alloc ∧
      translatePendingCppExceptionToJSErrorOfFunction ctxFn (CppException.exception "bad arg")
          1 =
        translatePendingCppExceptionToJSError ctxFn (CppException.exception "bad arg")
          "myFn") ∧
    ∃ r : JSContext × JSValueRef,
      translatePendingCppExceptionToJSErrorOfFunction ctxBadName
        (CppException.exception "bad arg") 1 = Except.ok r ∧
      errorMessage r.1 r.2 =
        some (JSValue.string "Failed to get function name while handling exception") :=
  ⟨⟨by decide,
      ((translatePendingCppExceptionToJSErrorOfFunction_delegates ctxFn
        (CppException.exception "bad arg") 1 (by decide)).1 "myFn" rfl).1⟩,
    (translatePendingCppExceptionToJSErrorOfFunction_delegates ctxBadName
      (CppException.exception "bad arg") 1 (by decide)).2
        { message := "toString raised", stack := none } rfl⟩

/-! ## Global bindings: the claims -/

theorem getProp_setProp (props : List (String × JSValue)) (name : String) (v : JSValue) :
    getProp (setProp props name v) name = v := by
  simp [getProp, setProp, List.lookup]

theorem getProperty_setProperty_global (ctx : JSContext) (name : String) (v : JSValue) :
    Object.getProperty (Object.setProperty ctx (Object.getGlobalObject ctx) name v)
      (some (Object.getGlobalObject (Object.setProperty ctx (Object.getGlobalObject ctx) name v)))
      name = some v := by
  simp [Object.getProperty, Object.setProperty, Object.getGlobalObject, JSContext.object?,
    getProp_setProp]

theorem installGlobalFunction_ref (ctx : JSContext) (name : String) (f : JSFunction) :
    (installGlobalFunction ctx name f).ref = ctx.ref := rfl

theorem installGlobalFunction_heap_length (ctx : JSContext) (name : String) (f : JSFunction) :
    (installGlobalFunction ctx name f).heap.length = ctx.heap.length + 1 := by
  simp [installGlobalFunction, makeFunction, JSObjectMake, Object.setProperty,
    Object.getGlobalObject]

theorem installGlobalFunction_object (ctx : JSContext) (name : String) (f : JSFunction) :
    (installGlobalFunction ctx name f).object? (ctx.heap.length + 1) =
      some { jsClass := JSClassRef.kClassDef, priv := some f,
             props := [("name", JSValue.string name)] } := by
  simp [installGlobalFunction, makeFunction, JSObjectMake, Object.setProperty,
    Object.getGlobalObject, JSContext.object?, setProp]

theorem installGlobalFunction_property (ctx : JSContext) (name : String) (f : JSFunction) :
    Object.getProperty (installGlobalFunction ctx name f)
      (some (Object.getGlobalObject (installGlobalFunction ctx name f))) name =
      some (JSValue.object (ctx.heap.length + 1)) := by
  simp [installGlobalFunction, makeFunction, JSObjectMake, Object.setProperty,
    Object.getGlobalObject, Object.getProperty, JSContext.object?, getProp_setProp]

theorem installGlobalFunction_functionCaller (ctx : JSContext) (name : String)
    (f : JSFunction) (thisObject : JSObjectRef) (A : List JSValueRef) :
    functionCaller (installGlobalFunction ctx name f) (ctx.heap.length + 1) thisObject A =
      some (f ctx.ref thisObject A) := by
  simp [functionCaller, JSObjectGetPrivate, installGlobalFunction_object,
    installGlobalFunction_ref]

theorem installGlobalFunction_call (ctx : JSContext) (name : String) (f : JSFunction)
    (A : List JSValueRef) (v : JSValueRef)
    (hv : f ctx.ref (Object.getGlobalObject ctx) A = Except.ok v) :
    callGlobalFunction (installGlobalFunction ctx name f) name A =
      some (Except.ok (installGlobalFunction ctx name f, Completion.normal v)) := by
  simp only [callGlobalFunction, installGlobalFunction_property, JSObjectCallAsFunction,
    installGlobalFunction_object, exceptionWrapMethod, installGlobalFunction_functionCaller]
  simp only [Object.getGlobalObject] at hv ⊢
  rw [hv]

/-- C8: for every state, bound or not at `n`, every name `n` and every closure `f`, after
`installGlobalFunction(ctx, n, f)` the global property `n` holds a function object that can
be called; its dispatcher runs `f` on `(ctx, thisObject, A)` and yields what `f` yields, and
calling the global `n` with arguments `A` returns the value that `f` returns for
`(ctx, globalThis, A)`.  The same holds after an earlier `installGlobalFunction(ctx, n, g)`:
`n` is then bound to the behaviour of `f` only. -/
theorem installGlobalFunction_binds_closure (ctx : JSContext) (n : String) (f : JSFunction) :
    (Object.getProperty (installGlobalFunction ctx n f)
        (some (Object.getGlobalObject (installGlobalFunction ctx n f))) n =
      some (JSValue.object (ctx.heap.length + 1)) ∧
     JSObjectIsFunction (installGlobalFunction ctx n f) (ctx.heap.length + 1) = true ∧
     (∀ (thisObject : JSObjectRef) (A : List JSValueRef),
       functionCaller (installGlobalFunction ctx n f) (ctx.heap.length + 1) thisObject A =
         some (f ctx.ref thisObject A)) ∧
     (∀ (A : List JSValueRef) (v : JSValueRef),
       f ctx.ref (Object.getGlobalObject ctx) A = Except.ok v →
       callGlobalFunction (installGlobalFunction ctx n f) n A =
         some (Except.ok (installGlobalFunction ctx n f, Completion.normal v)))) ∧
    (∀ g : JSFunction,
      Object.getProperty (installGlobalFunction (installGlobalFunction ctx n g) n f)
          (some (Object.getGlobalObject
            (installGlobalFunction (installGlobalFunction ctx n g) n f))) n =
        some (JSValue.object (ctx.heap.length + 2)) ∧
      (∀ (thisObject : JSObjectRef) (A : List JSValueRef),
        functionCaller (installGlobalFunction (installGlobalFunction ctx n g) n f)
            (ctx.heap.length + 2) thisObject A =
          some (f ctx.ref thisObject A)) ∧
      (∀ (A : List JSValueRef) (v : JSValueRef),
        f ctx.ref (Object.getGlobalObject ctx) A = Except.ok v →
        callGlobalFunction (installGlobalFunction (installGlobalFunction ctx n g) n f) n A =
          some (Except.ok (installGlobalFunction (installGlobalFunction ctx n g) n f,
            Completion.normal v)))) := by
  refine ⟨⟨installGlobalFunction_property ctx n f, ?_,
      installGlobalFunction_functionCaller ctx n f,
      fun A v hv => installGlobalFunction_call ctx n f A v hv⟩, fun g => ⟨?_, ?_, ?_⟩⟩
  · simp [JSObjectIsFunction, installGlobalFunction_object]
  · have h := installGlobalFunction_property (installGlobalFunction ctx n g) n f
    rwa [installGlobalFunction_heap_length] at h
  · intro thisObject A
    have h := installGlobalFunction_functionCaller (installGlobalFunction ctx n g) n f
      thisObject A
    rwa [installGlobalFunction_heap_length, installGlobalFunction_ref] at h
  · intro A v hv
    exact installGlobalFunction_call (installGlobalFunction ctx n g) n f A v hv

/-- C8, at a state where `myFn` is already bound: after installing the closure that returns
42 under `myFn`, calling the global `myFn` returns 42. -/
theorem installGlobalFunction_binds_closure_witness :
    fortyTwo ctxFn.ref (Object.getGlobalObject ctxFn) [some (JSValue.number 1)] =
      Except.ok (some (JSValue.number 42)) ∧
    callGlobalFunction (installGlobalFunction ctxFn "myFn" fortyTwo) "myFn"
        [some (JSValue.number 1)] =
      some (Except.ok (installGlobalFunction ctxFn "myFn" fortyTwo,
        Completion.normal (some (JSValue.number 42)))) :=
  ⟨rfl,
    (installGlobalFunction_binds_closure ctxFn "myFn" fortyTwo).1.2.2.2
      [some (JSValue.number 1)] (some (JSValue.number 42)) rfl⟩

/-- C9: for every state and every name `n`, after `removeGlobal(ctx, n)` the global property
`n` reads as the undefined value; so it does when `n` was never installed, and when `n` was
bound before by either overload of `installGlobalFunction` or by `installGlobalProxy`. -/
theorem removeGlobal_reads_undefined (ctx : JSContext) (n : String) :
    Object.getProperty (removeGlobal ctx n)
        (some (Object.getGlobalObject (removeGlobal ctx n))) n = some JSValue.undefined ∧
    (∀ f : JSFunction,
      Object.getProperty (removeGlobal (installGlobalFunction ctx n f) n)
          (some (Object.getGlobalObject (removeGlobal (installGlobalFunction ctx n f) n))) n =
        some JSValue.undefined) ∧
    (∀ callback : JSObjectCallAsFunctionCallback,
      Object.getProperty (removeGlobal (installGlobalFunctionWithCallback ctx n callback) n)
          (some (Object.getGlobalObject
            (removeGlobal (installGlobalFunctionWithCallback ctx n callback) n))) n =
        some JSValue.undefined) ∧
    (∀ callback : JSObjectGetPropertyCallback,
      Object.getProperty (removeGlobal (installGlobalProxy ctx n callback) n)
          (some (Object.getGlobalObject
            (removeGlobal (installGlobalProxy ctx n callback) n))) n =
        some JSValue.undefined) :=
  ⟨getProperty_setProperty_global ctx n JSValue.undefined,
   fun _ => getProperty_setProperty_global _ n JSValue.undefined,
   fun _ => getProperty_setProperty_global _ n JSValue.undefined,
   fun _ => getProperty_setProperty_global _ n JSValue.undefined⟩

end JSCHelpers
